import Mathlib

/-!
# Verification of the scam.web.id ingestion-and-enrichment pipeline

A shallow embedding of the pipeline code (convex/aiAnalyzer.ts,
convex/reddit.ts, convex/scams.ts, convex/scrape/firecrawl.ts) in Lean 4,
together with theorems settling the specification's claims about it.

Modelling conventions:
* JS numbers that hold monetary amounts or coordinates are modelled as `ℚ`;
  counters and timestamps as `ℕ`.
* JS `undefined`-able fields are `Option`s.  JS truthiness of a number is
  `≠ 0`; of a string, `≠ ""`; of an optional value, `isSome` plus the
  value's own truthiness where the code relies on it.
* `Array.prototype.sort` with comparator `(a, b) => b.count - a.count` is a
  stable descending sort on `count`; it is modelled by
  `List.insertionSort (fun a b => b.count ≤ a.count)`, which is extensionally
  a stable descending sort with the same tie behaviour.
* External calls (the Reddit API, the LLM endpoint, the Mapbox geocoder) are
  modelled by explicit response values or oracle functions passed in;
  `Date.now()` is an explicit `now` parameter.
* The Convex tables are modelled as lists in creation order; `take n` is
  `List.take n`, `.first()` on a filtered query is the first matching
  element, `.unique()` on the `by_post_id` index is lookup by `postId`.
-/

/-- Geographic coordinates `{lat, lng}` (convex schema `coordinates`). -/
structure Coords where
  lat : ℚ
  lng : ℚ
deriving DecidableEq, Repr

/-- One entry of `locationStats.topScamTypes`: `{ type, count }`. -/
structure TypeCount where
  type : String
  count : ℕ
deriving DecidableEq, Repr

/-- A row of the `locationStats` table (convex schema), the fields touched by
`updateLocationStatsMutation` / `...WithCoordinates`. -/
structure LocationStat where
  country : String
  city : Option String
  totalScams : ℕ
  topScamTypes : List TypeCount
  averageLoss : Option ℚ
  lastUpdated : ℕ
  coordinates : Option Coords
deriving DecidableEq, Repr

/-- Arguments of `updateLocationStatsMutation` (convex/aiAnalyzer.ts:496-518):
country, optional city, scam type, optional money lost. -/
structure IncArgs where
  country : String
  city : Option String
  scamType : String
  moneyLost : Option ℚ
deriving DecidableEq, Repr

/-- JS truthiness of `args.moneyLost` (a `number | undefined`):
present and nonzero. -/
def moneyTruthy : Option ℚ → Bool
  | none => false
  | some m => m ≠ 0

/-- The descending-by-count comparator used at aiAnalyzer.ts:537
(`topScamTypes.sort((a, b) => b.count - a.count)`). -/
def countDesc (a b : TypeCount) : Prop := b.count ≤ a.count

instance : DecidableRel countDesc := fun a b => by
  unfold countDesc; infer_instance

/-- aiAnalyzer.ts:528-534: find the entry for `scamType`; increment its count
if present, else push `{type, count: 1}` at the end. -/
def bumpTypeList (scamType : String) : List TypeCount → List TypeCount
  | [] => [⟨scamType, 1⟩]
  | t :: ts =>
      if t.type = scamType then { t with count := t.count + 1 } :: ts
      else t :: bumpTypeList scamType ts

/-- The candidate top-scam-type list after insert-or-increment and the stable
descending sort (aiAnalyzer.ts:528-537), before `slice(0, 5)`. -/
def sortedCandidates (st : LocationStat) (a : IncArgs) : List TypeCount :=
  List.insertionSort countDesc (bumpTypeList a.scamType st.topScamTypes)

/-- aiAnalyzer.ts:526-544: the patch applied to an existing `locationStats`
row.  `averageLoss` is updated to
`(existingStats.averageLoss || 0) + args.moneyLost / 2` when `args.moneyLost`
is truthy, else left unchanged. -/
def bumpLocationStat (now : ℕ) (a : IncArgs) (st : LocationStat) : LocationStat :=
  { st with
    totalScams := st.totalScams + 1
    topScamTypes := (sortedCandidates st a).take 5
    averageLoss :=
      if moneyTruthy a.moneyLost then
        some ((st.averageLoss.getD 0) + (a.moneyLost.getD 0) / 2)
      else st.averageLoss
    lastUpdated := now }

/-- aiAnalyzer.ts:546-553: the fresh row inserted when no row for
`(country, city)` exists. -/
def freshLocationStat (now : ℕ) (a : IncArgs) : LocationStat :=
  { country := a.country
    city := a.city
    totalScams := 1
    topScamTypes := [⟨a.scamType, 1⟩]
    averageLoss := a.moneyLost
    lastUpdated := now
    coordinates := none }

/-- `updateLocationStatsMutation` (aiAnalyzer.ts:496-556) on the
`locationStats` table: the first row matching `(country, city)` is patched by
`bumpLocationStat`; if none matches, a fresh row is appended. -/
def updateLocationStatsMutation (now : ℕ) (a : IncArgs) :
    List LocationStat → List LocationStat
  | [] => [freshLocationStat now a]
  | st :: rest =>
      if st.country = a.country ∧ st.city = a.city then
        bumpLocationStat now a st :: rest
      else st :: updateLocationStatsMutation now a rest

/-- aiAnalyzer.ts:595-620: the existing-row branch of
`updateLocationStatsMutationWithCoordinates`: same update as
`bumpLocationStat`, plus coordinates attached only if provided and not
already set (first non-null wins). -/
def bumpLocationStatWithCoords (now : ℕ) (a : IncArgs) (c : Option Coords)
    (st : LocationStat) : LocationStat :=
  let st' := bumpLocationStat now a st
  match c, st.coordinates with
  | some c, none => { st' with coordinates := some c }
  | _, _ => st'

/-- `updateLocationStatsMutationWithCoordinates` (aiAnalyzer.ts:559-639) on
the `locationStats` table. -/
def updateLocationStatsMutationWithCoordinates (now : ℕ) (a : IncArgs)
    (c : Option Coords) : List LocationStat → List LocationStat
  | [] => [{ freshLocationStat now a with coordinates := c }]
  | st :: rest =>
      if st.country = a.country ∧ st.city = a.city then
        bumpLocationStatWithCoords now a c st :: rest
      else st :: updateLocationStatsMutationWithCoordinates now a c rest

/-- A sequence of `recordIncident` calls (each with its `Date.now()` value)
applied to the `locationStats` table, oldest first. -/
def runIncidents : List (ℕ × IncArgs) → List LocationStat → List LocationStat
  | [], table => table
  | (now, a) :: rest, table =>
      runIncidents rest (updateLocationStatsMutation now a table)

/-- Sum of the counts listed in a top-scam-type list. -/
def countSum (l : List TypeCount) : ℕ := (l.map TypeCount.count).sum

/-! ## Batch scheduler (convex/reddit.ts) -/

/-- The configured source channels (reddit.ts:29). -/
def SUBREDDITS : List String := ["travel", "solotravel", "scams", "digitalnomad", "traveladvice"]

/-- The configured search terms (reddit.ts:8-27). -/
def REDDIT_KEYWORDS : List String :=
  ["travel scam", "scam", "scammed", "rip off", "timeshare", "taxi", "tour", "fraud",
   "fake", "warning", "avoid", "pickpocket", "atm", "booking", "visa", "airport",
   "police", "ticket"]

/-- `args.batchSize || 5` (reddit.ts:677): `0`/absent falls back to 5
(JS `||` on a number treats `0` and `undefined` alike). -/
def effBatchSize (sizeArg : ℕ) : ℕ := if sizeArg = 0 then 5 else sizeArg

/-- The outcome of one `fetchBatch` call that matters for scheduling:
the (channel index, term index) pairs whose work unit was started, and the
returned `nextBatch` cursor. -/
structure FetchBatchResult where
  visited : List (ℕ × ℕ)
  nextBatch : ℕ
deriving DecidableEq, Repr

/-- `fetchBatch` (reddit.ts:669-734) over a channel matrix of `S` channels and
`K` terms.  The slice is `[batch*size, min(batch*size+size, S*K))`; index `i`
decodes to the pair `(i / K, i % K)` (reddit.ts:700-701).  `budget` is the
number of loop iterations completed before the elapsed-time check
`Date.now() - startTime > MAX_RUNTIME` trips and breaks the loop
(reddit.ts:695-698); a per-unit fetch failure is caught and does not stop the
loop, so it does not affect which pairs are visited.  The returned cursor is
`endIdx >= totalCombinations ? 0 : batch + 1` (reddit.ts:730) whether or not
the loop was interrupted. -/
def fetchBatch (S K budget batch sizeArg : ℕ) : FetchBatchResult :=
  let size := effBatchSize sizeArg
  let total := S * K
  let startIdx := batch * size
  let endIdx := min (startIdx + size) total
  if total ≤ startIdx then ⟨[], 0⟩
  else
    ⟨(List.range' startIdx (min (endIdx - startIdx) budget)).map (fun i => (i / K, i % K)),
     if total ≤ endIdx then 0 else batch + 1⟩

/-- The resume protocol from the spec: call `fetchBatch`, then call it again
with the returned `nextBatch` until that cursor is `0`.  `budgets b` is the
time budget the host grants the call made at batch number `b`; `fuel` bounds
the number of calls (the protocol itself terminates because the cursor
increases). -/
def runBatches (S K sizeArg : ℕ) (budgets : ℕ → ℕ) : ℕ → ℕ → List (ℕ × ℕ)
  | 0, _ => []
  | fuel + 1, batch =>
      let r := fetchBatch S K (budgets batch) batch sizeArg
      r.visited ++ (if r.nextBatch = 0 then [] else runBatches S K sizeArg budgets fuel r.nextBatch)

/-! ## Stories, ingestion store (convex/reddit.ts) and enrichment
(convex/aiAnalyzer.ts) -/

/-- A row of the `scamStories` table: the raw-post fields written by
`storeRawPost` (reddit.ts:276-301) plus the enrichment fields patched by
`updateStoryWithAnalysis`, `markAsNotScam` and `markProcessingError`
(aiAnalyzer.ts:311-425).  `processingErrors` is optional in the schema and
read as `story.processingErrors || []`; it is modelled as a plain list with
`[]` for the absent value. -/
structure Story where
  redditUrl : String
  subreddit : String
  postId : String
  authorUsername : String
  postDate : ℕ
  upvotes : ℕ
  num_comments : ℕ
  title : String
  summary : String
  fullStory : String
  country : String
  city : Option String
  specificLocation : Option String
  scamType : String
  scamMethods : List String
  targetDemographics : List String
  moneyLost : Option ℚ
  currency : Option String
  resolution : Option String
  warningSignals : List String
  preventionTips : List String
  aiConfidenceScore : ℚ
  verificationStatus : String
  helpfulCount : ℕ
  viewCount : ℕ
  reportCount : ℕ
  createdAt : ℕ
  updatedAt : ℕ
  isProcessed : Bool
  coordinates : Option Coords
  processingErrors : List String
deriving DecidableEq, Repr

/-- The raw post payload handed to `storeRawPost` (reddit.ts:252-263). -/
structure PostData where
  id : String
  title : String
  selftext : String
  author : String
  subreddit : String
  created_utc : ℕ
  ups : ℕ
  num_comments : ℕ
  url : String
  permalink : String
deriving DecidableEq, Repr

/-- `storeRawPost` (reddit.ts:250-308): look the post up by external post ID
on the unique `by_post_id` index; if absent, insert a fresh unprocessed story
and report `inserted = true`; if present, leave the table untouched and
report `inserted = false`. -/
def storeRawPost (now : ℕ) (post : PostData) (table : List Story) :
    Bool × List Story :=
  if table.any (fun s => s.postId = post.id) then (false, table)
  else
    (true,
     table ++
       [{ redditUrl := post.url
          subreddit := post.subreddit
          postId := post.id
          authorUsername := post.author
          postDate := post.created_utc * 1000
          upvotes := post.ups
          num_comments := post.num_comments
          title := post.title
          summary := ""
          fullStory := post.selftext
          country := "Unknown"
          city := none
          specificLocation := none
          scamType := "other"
          scamMethods := []
          targetDemographics := []
          moneyLost := none
          currency := none
          resolution := none
          warningSignals := []
          preventionTips := []
          aiConfidenceScore := 0
          verificationStatus := "unverified"
          helpfulCount := 0
          viewCount := 0
          reportCount := 0
          createdAt := now
          updatedAt := now
          isProcessed := false
          coordinates := none
          processingErrors := [] }])

/-- `markAsNotScam` (aiAnalyzer.ts:399-409). -/
def markAsNotScam (now : ℕ) (story : Story) : Story :=
  { story with
    isProcessed := true
    aiConfidenceScore := 0
    verificationStatus := "ai_flagged"
    updatedAt := now }

/-- `markProcessingError` (aiAnalyzer.ts:411-425): append the error string to
`processingErrors`; no other field of the record changes except
`updatedAt`. -/
def markProcessingError (now : ℕ) (err : String) (story : Story) : Story :=
  { story with
    processingErrors := story.processingErrors ++ [err]
    updatedAt := now }

/-- `getUnprocessedStoriesBatch` (aiAnalyzer.ts:731-739): the first `limit`
stories with `isProcessed = false`, in table order.  No other field is
consulted. -/
def getUnprocessedStoriesBatch (table : List Story) (limit : ℕ) : List Story :=
  (table.filter (fun s => s.isProcessed = false)).take limit

/-! ## Enrichment engine: the LLM classification call (convex/aiAnalyzer.ts) -/

/-- The classifier's structured result (interface `ScamAnalysis`,
aiAnalyzer.ts:14-29). -/
structure ScamAnalysis where
  isScamStory : Bool
  confidence : ℚ
  country : String
  city : Option String
  specificLocation : Option String
  scamType : String
  scamMethods : List String
  targetDemographics : List String
  moneyLost : Option ℚ
  currency : Option String
  warningSignals : List String
  preventionTips : List String
  resolution : Option String
  summary : String
deriving DecidableEq, Repr

/-- The safe default analysis returned on any call failure
(aiAnalyzer.ts:242-252). -/
def defaultScamAnalysis : ScamAnalysis :=
  { isScamStory := false
    confidence := 0
    country := "Unknown"
    city := none
    specificLocation := none
    scamType := "other"
    scamMethods := []
    targetDemographics := []
    moneyLost := none
    currency := none
    warningSignals := []
    preventionTips := []
    resolution := none
    summary := "API error - could not analyze" }

/-- The body of an HTTP response from the LLM endpoint, after the two JSON
parses (`response.json()` and `JSON.parse(...message.content)`,
aiAnalyzer.ts:222-223): either unparseable (either parse throws) or a parsed
analysis object. -/
inductive LlmBody where
  | unparseable
  | parsed (a : ScamAnalysis)
deriving DecidableEq, Repr

/-- The outcome of the `fetch` to the LLM endpoint: the 30-second abort
timeout fires, the network fails, or a response with an HTTP status code
arrives (aiAnalyzer.ts:193-214). -/
inductive LlmResponse where
  | timeout
  | netError
  | ok (status : ℕ) (body : LlmBody)
deriving DecidableEq, Repr

/-- `response.ok` of the Fetch API: status in [200, 300). -/
def httpOk (status : ℕ) : Bool := 200 ≤ status ∧ status < 300

/-- `analyzeWithOpenAI` (aiAnalyzer.ts:142-254) given the outcome of the
external call.  Every failure inside the `try` — abort timeout, network
error, non-2xx status (aiAnalyzer.ts:216-220), JSON parse failure, or the
validation throw on a missing `country` field (aiAnalyzer.ts:226-228, the
`!result.isScamStory === undefined` disjunct compares a boolean to
`undefined` and is always false, so only `!result.country` can trigger it) —
is caught and yields `defaultScamAnalysis` (aiAnalyzer.ts:231-253). -/
def analyzeWithOpenAI (resp : LlmResponse) : ScamAnalysis :=
  match resp with
  | .timeout => defaultScamAnalysis
  | .netError => defaultScamAnalysis
  | .ok status body =>
      if httpOk status then
        match body with
        | .unparseable => defaultScamAnalysis
        | .parsed a => if a.country = "" then defaultScamAnalysis else a
      else defaultScamAnalysis

/-- The failure modes of the classification call named by the spec: timeout,
non-2xx response, unparseable JSON. -/
def ClassifyCallFailed (resp : LlmResponse) : Prop :=
  resp = .timeout ∨
  (∃ status body, resp = .ok status body ∧ httpOk status = false) ∨
  (∃ status, resp = .ok status .unparseable)

/-! ## Geocode normalizer (convex/scrape/firecrawl.ts) -/

/-- `COUNTRY_CODE_MAP` (firecrawl.ts): country name (lower case) → ISO2 code,
used to narrow the Mapbox country filter. -/
def COUNTRY_CODE_MAP : List (String × String) :=
  [("united states", "US"), ("usa", "US"), ("us", "US"), ("mexico", "MX"),
   ("canada", "CA"), ("brazil", "BR"), ("argentina", "AR"), ("peru", "PE"),
   ("united kingdom", "GB"), ("uk", "GB"), ("england", "GB"), ("scotland", "GB"),
   ("wales", "GB"), ("ireland", "IE"), ("france", "FR"), ("germany", "DE"),
   ("italy", "IT"), ("spain", "ES"), ("portugal", "PT"), ("greece", "GR"),
   ("netherlands", "NL"), ("czechia", "CZ"), ("czech republic", "CZ"),
   ("egypt", "EG"), ("morocco", "MA"), ("kenya", "KE"), ("south africa", "ZA"),
   ("rwanda", "RW"), ("nigeria", "NG"), ("united arab emirates", "AE"),
   ("uae", "AE"), ("turkey", "TR"), ("qatar", "QA"), ("saudi arabia", "SA"),
   ("india", "IN"), ("indonesia", "ID"), ("thailand", "TH"), ("vietnam", "VN"),
   ("viet nam", "VN"), ("singapore", "SG"), ("malaysia", "MY"),
   ("philippines", "PH"), ("china", "CN"), ("japan", "JP"),
   ("south korea", "KR"), ("korea", "KR"), ("australia", "AU"),
   ("new zealand", "NZ")]

/-- JS `String.prototype.toLowerCase` (character-wise lower-casing). -/
def jsToLower (s : String) : String := String.mk (s.toList.map Char.toLower)

/-- JS `String.prototype.trim` (strip whitespace from both ends). -/
def jsTrim (s : String) : String :=
  String.mk (((s.toList.dropWhile Char.isWhitespace).reverse.dropWhile
    Char.isWhitespace).reverse)

/-- `countryToIso2` (firecrawl.ts): trim, lower-case, look up. -/
def countryToIso2 : Option String → Option String
  | none => none
  | some c => (COUNTRY_CODE_MAP.find? (fun p => p.1 = jsToLower (jsTrim c))).map (·.2)

/-- JS `haystack.includes(needle)` on strings (substring containment). -/
def strIncludes (haystack needle : String) : Bool :=
  (List.range (haystack.toList.length + 1)).any
    (fun i => needle.toList.isPrefixOf (haystack.toList.drop i))

/-- JS `a || b` where `a, b : string | undefined`: `b` when `a` is absent or
the empty string. -/
def jsOrStr (a b : Option String) : Option String :=
  match a with
  | none => b
  | some s => if s = "" then b else some s

/-- One Mapbox feature, as consumed by the geocoder: coordinates plus the
naming context used for canonical country/city extraction
(firecrawl.ts:888-901). -/
structure GeoFeature where
  lat : ℚ
  lng : ℚ
  ctxCountryName : Option String
  ctxPlaceName : Option String
  ctxLocalityName : Option String
  propsCountry : Option String
  propsName : Option String
  placeTypes : List String
deriving DecidableEq, Repr

/-- The Mapbox forward-geocoding endpoint's reply: a non-OK HTTP status, or
an OK reply with a (possibly empty) feature list. -/
inductive GeoResponse where
  | httpError (status : ℕ)
  | ok (features : List GeoFeature)
deriving DecidableEq, Repr

/-- The external geocoder, as a function of the query string and the optional
ISO2 country filter appended to the request URL. -/
def GeoOracle := String → Option String → GeoResponse

/-- `location.toLowerCase().trim()` (firecrawl.ts:732). -/
def locationLowerKey (location : String) : String := jsTrim (jsToLower location)

/-- Does the optional country hint, lower-cased, contain `needle`?
(`countryHint?.toLowerCase().includes(needle)`, firecrawl.ts:735/738;
optional chaining makes the absent hint falsy.) -/
def hintIncludes (countryHint : Option String) (needle : String) : Bool :=
  match countryHint with
  | none => false
  | some h => strIncludes (jsToLower h) needle

/-- The query string sent to the geocoder (firecrawl.ts:729-744 and its
mirror at firecrawl.ts:833-843): the two hard-coded problem cases, then the
append-country-when-absent rule (`countryHint` must be truthy, i.e. present
and non-empty), then the bare trimmed location. -/
def buildGeoQuery (location : String) (countryHint : Option String) : String :=
  if locationLowerKey location = "delhi" ∧ hintIncludes countryHint "india" then
    "Delhi, India"
  else if locationLowerKey location = "lombok" ∧ hintIncludes countryHint "indonesia" then
    "Lombok Island, Indonesia"
  else
    match countryHint with
    | some h =>
        if h ≠ "" ∧ ¬ strIncludes (jsToLower location) (jsToLower h) then
          jsTrim location ++ ", " ++ jsTrim h
        else jsTrim location
    | none => jsTrim location

/-- The Delhi sanity check fires (firecrawl.ts:781/876): the first feature's
coordinates are outside the 5-degree box around (28.6, 77.2). -/
def delhiOutOfTolerance (lat lng : ℚ) : Bool := |lat - 28.6| > 5 ∨ |lng - 77.2| > 5

/-- The Lombok sanity check fires (firecrawl.ts:788/882): outside the
2-degree box around (-8.65, 116.3). -/
def lombokOutOfTolerance (lat lng : ℚ) : Bool := |lat - (-8.65)| > 2 ∨ |lng - 116.3| > 2

/-- Lookup in the process-lifetime `geocodeCache` `Map` (firecrawl.ts:712). -/
def cacheGet (key : String) (cache : List (String × Coords)) : Option Coords :=
  (cache.find? (fun p => p.1 = key)).map (·.2)

/-- `Map.set` on the `geocodeCache`. -/
def cacheSet (key : String) (c : Coords) : List (String × Coords) → List (String × Coords)
  | [] => [(key, c)]
  | (k, v) :: rest => if k = key then (k, c) :: rest else (k, v) :: cacheSet key c rest

/-- The outcome of one `geocodeLocation` call: the returned value, the cache
afterwards, and whether an external geocoding request was made. -/
structure GeocodeOutcome where
  result : Option Coords
  cache : List (String × Coords)
  calledExternal : Bool
deriving DecidableEq, Repr

/-- `geocodeLocation` (firecrawl.ts:715-813).  The cache is consulted first
under `location.toLowerCase().trim()` — before the query string is built, so
the key carries no country hint (firecrawl.ts:717-721).  On a fresh query:
missing token aborts; an HTTP error or an empty feature list yields `null`;
the two sanity checks return hard-coded coordinates early, without caching
(firecrawl.ts:784/791); otherwise the first feature's coordinates are cached
under the key and returned. -/
def geocodeLocation (oracle : GeoOracle) (tokenSet : Bool)
    (cache : List (String × Coords)) (location : String)
    (countryHint : Option String) : GeocodeOutcome :=
  let key := locationLowerKey location
  match cacheGet key cache with
  | some c => ⟨some c, cache, false⟩
  | none =>
      if tokenSet then
        match oracle (buildGeoQuery location countryHint) (countryToIso2 countryHint) with
        | .httpError _ => ⟨none, cache, true⟩
        | .ok [] => ⟨none, cache, true⟩
        | .ok (f :: _) =>
            if locationLowerKey location = "delhi" ∧ hintIncludes countryHint "india" ∧
                delhiOutOfTolerance f.lat f.lng then
              ⟨some ⟨28.6139, 77.209⟩, cache, true⟩
            else if locationLowerKey location = "lombok" ∧ hintIncludes countryHint "indonesia" ∧
                lombokOutOfTolerance f.lat f.lng then
              ⟨some ⟨-8.65, 116.3249⟩, cache, true⟩
            else
              ⟨some ⟨f.lat, f.lng⟩, cacheSet key ⟨f.lat, f.lng⟩ cache, true⟩
      else ⟨none, cache, false⟩

/-- The detailed geocoder's result: coordinates plus canonical names. -/
structure GeoDetailed where
  lat : ℚ
  lng : ℚ
  country : Option String
  city : Option String
deriving DecidableEq, Repr

/-- `geocodeLocationDetailed` (firecrawl.ts:816-907): same query building and
sanity checks as `geocodeLocation`, but no cache at all (firecrawl.ts:825),
and canonical country/city names are extracted from the feature's context
object with JS `||` fallbacks (firecrawl.ts:888-901). -/
def geocodeLocationDetailed (oracle : GeoOracle) (tokenSet : Bool)
    (location : String) (countryHint : Option String) : Option GeoDetailed :=
  if tokenSet then
    match oracle (buildGeoQuery location countryHint) (countryToIso2 countryHint) with
    | .httpError _ => none
    | .ok [] => none
    | .ok (f :: _) =>
        if locationLowerKey location = "delhi" ∧ hintIncludes countryHint "india" ∧
            delhiOutOfTolerance f.lat f.lng then
          some ⟨28.6139, 77.209, some "India", some "Delhi"⟩
        else if locationLowerKey location = "lombok" ∧ hintIncludes countryHint "indonesia" ∧
            lombokOutOfTolerance f.lat f.lng then
          some ⟨-8.65, 116.3249, some "Indonesia", some "Lombok"⟩
        else
          some ⟨f.lat, f.lng,
            jsOrStr f.ctxCountryName
              (jsOrStr f.propsCountry
                (if f.placeTypes.contains "country" then f.propsName else none)),
            jsOrStr f.ctxPlaceName
              (jsOrStr f.ctxLocalityName
                (if f.placeTypes.contains "place" ∨ f.placeTypes.contains "locality" then
                  f.propsName
                else none))⟩
  else none

/-! ## Enrichment: the per-record pipeline step (convex/aiAnalyzer.ts:31-139) -/

/-- The enumerated category values of `scamTypeMap`
(aiAnalyzer.ts:338-354). -/
def validScamTypes : List String :=
  ["taxi", "accommodation", "tour", "police", "atm", "restaurant", "shopping",
   "visa", "airport", "pickpocket", "romance", "timeshare", "fake_ticket",
   "currency_exchange", "other"]

/-- `scamTypeMap[args.analysis.scamType] || "other"` (aiAnalyzer.ts:361). -/
def scamTypeMapped (t : String) : String := if validScamTypes.contains t then t else "other"

/-- `updateStoryWithAnalysis` (aiAnalyzer.ts:311-381): patch the record with
the classification fields, set `isProcessed`, and attach coordinates only
when provided. -/
def updateStoryWithAnalysis (now : ℕ) (a : ScamAnalysis) (coords : Option Coords)
    (story : Story) : Story :=
  let base := { story with
    summary := a.summary
    country := a.country
    city := a.city
    specificLocation := a.specificLocation
    scamType := scamTypeMapped a.scamType
    scamMethods := a.scamMethods
    targetDemographics := a.targetDemographics
    moneyLost := a.moneyLost
    currency := a.currency
    warningSignals := a.warningSignals
    preventionTips := a.preventionTips
    resolution := a.resolution
    aiConfidenceScore := a.confidence
    isProcessed := true
    updatedAt := now }
  match coords with
  | some c => { base with coordinates := some c }
  | none => base

/-- The location query built from the analysis (aiAnalyzer.ts:74-79):
`[specificLocation?, city?, country].join(", ")`, truthy parts only. -/
def storyLocationQuery (a : ScamAnalysis) : String :=
  String.intercalate ", "
    ((match a.specificLocation with | some s => if s = "" then [] else [s] | none => []) ++
     (match a.city with | some c => if c = "" then [] else [c] | none => []) ++
     [a.country])

/-- The effect of one `analyzeScamStory` invocation on the story record
(aiAnalyzer.ts:31-139).  An already-processed record is returned unchanged
(aiAnalyzer.ts:40-42).  A missing LLM configuration throws before the
external call (aiAnalyzer.ts:142-156), so the outer catch appends the error
via `markProcessingError` (aiAnalyzer.ts:132-137) and the record stays
unprocessed.  Otherwise the classification result decides: not a scam story
— `markAsNotScam`; a scam story — geocode when a usable country hint exists
(aiAnalyzer.ts:73-97, via `geocodeAndNormalize`, a thin wrapper around
`geocodeLocationDetailed`), overwrite country/city with truthy canonical
names, and patch via `updateStoryWithAnalysis`.  The comment-marking loop and
the location-statistics update touch other tables, not this record; the
statistics side is `updateLocationStatsMutation` above. -/
def analyzeScamStoryRecord (configOk : Bool) (resp : LlmResponse)
    (oracle : GeoOracle) (tokenSet : Bool) (now : ℕ) (story : Story) : Story :=
  if story.isProcessed then story
  else if configOk = false then
    markProcessingError now "LLM API key not configured (set LLM_API_KEY or OPENAI_API_KEY)" story
  else
    let analysis := analyzeWithOpenAI resp
    if analysis.isScamStory then
      if analysis.country ≠ "" ∧ analysis.country ≠ "Unknown" then
        match geocodeLocationDetailed oracle tokenSet (storyLocationQuery analysis)
            (some analysis.country) with
        | some d =>
            let a' := { analysis with
              country := match d.country with
                | some c => if c = "" then analysis.country else c
                | none => analysis.country
              city := match d.city with
                | some c => if c = "" then analysis.city else some c
                | none => analysis.city }
            updateStoryWithAnalysis now a' (some ⟨d.lat, d.lng⟩) story
        | none => updateStoryWithAnalysis now analysis none story
      else updateStoryWithAnalysis now analysis none story
    else markAsNotScam now story

/-! ## Fetch job ledger (convex/reddit.ts:541-560) -/

/-- Status of a `redditFetchJobs` row. -/
inductive JobStatus where
  | pending
  | processing
  | completed
  | failed
deriving DecidableEq, Repr

/-- A row of the `redditFetchJobs` table. -/
structure FetchJob where
  subreddit : String
  keyword : String
  status : JobStatus
  errorMessage : Option String
  postsProcessed : ℕ
  lastFetchedAt : ℕ
deriving DecidableEq, Repr

/-- The per-job patch of `stopAllJobs` (reddit.ts:548-555): a `processing` or
`pending` job becomes `failed` with message "Manually stopped"; any other job
is untouched. -/
def stopOneJob (now : ℕ) (j : FetchJob) : FetchJob :=
  if j.status = .processing ∨ j.status = .pending then
    { j with status := .failed, errorMessage := some "Manually stopped", lastFetchedAt := now }
  else j

/-- `stopAllJobs` (reddit.ts:541-560): the table after the mutation.  The
mutation reads `ctx.db.query("redditFetchJobs").take(100)` — only the first
100 rows in table order are examined and patched. -/
def stopAllJobs (now : ℕ) (table : List FetchJob) : List FetchJob :=
  (table.take 100).map (stopOneJob now) ++ table.drop 100

/-- The `stoppedJobs` counter returned by `stopAllJobs`. -/
def stopAllJobsStopped (table : List FetchJob) : ℕ :=
  ((table.take 100).filter (fun j => j.status = .processing ∨ j.status = .pending)).length

/-! ## Auth-gated read queries (convex/scams.ts) -/

/-- The caller's identity as seen by `ctx.auth.getUserIdentity()`:
`null` for an unauthenticated caller. -/
structure UserIdentity where
  subject : String
deriving DecidableEq, Repr

/-- `getTotalScamCount` (scams.ts:8-25): unauthenticated callers get 0;
authenticated callers get the number of processed stories. -/
def getTotalScamCount (identity : Option UserIdentity) (stories : List Story) : ℕ :=
  match identity with
  | none => 0
  | some _ => (stories.filter (fun s => s.isProcessed = true)).length

/-- Truthiness of `story.coordinates?.lat && story.coordinates?.lng`
(scams.ts:45/215): coordinates present with both components nonzero. -/
def coordsTruthy : Option Coords → Bool
  | none => false
  | some c => c.lat ≠ 0 ∧ c.lng ≠ 0

/-- The projection returned per story by `getScamStoriesForGlobe`
(scams.ts:46-63).  The Convex document id is not part of the model. -/
structure GlobeStory where
  country : String
  city : Option String
  coordinates : Option Coords
  scamType : String
  scamMethods : List String
  title : String
  summary : String
  postDate : ℕ
  upvotes : ℕ
  moneyLost : Option ℚ
  currency : Option String
  redditUrl : String
  warningSignals : List String
  preventionTips : List String
  authorUsername : String
deriving DecidableEq, Repr

/-- `getScamStoriesForGlobe` (scams.ts:28-65): unauthenticated callers get
`[]`; authenticated callers get the processed stories with truthy
coordinates, projected to the essential fields. -/
def getScamStoriesForGlobe (identity : Option UserIdentity) (stories : List Story) :
    List GlobeStory :=
  match identity with
  | none => []
  | some _ =>
      ((stories.filter (fun s => s.isProcessed = true)).filter
          (fun s => coordsTruthy s.coordinates)).map
        (fun s =>
          { country := s.country, city := s.city, coordinates := s.coordinates,
            scamType := s.scamType, scamMethods := s.scamMethods, title := s.title,
            summary := s.summary, postDate := s.postDate, upvotes := s.upvotes,
            moneyLost := s.moneyLost, currency := s.currency, redditUrl := s.redditUrl,
            warningSignals := s.warningSignals, preventionTips := s.preventionTips,
            authorUsername := s.authorUsername })

/-- The descending-by-`totalScams` comparator of scams.ts:218. -/
def totalScamsDesc (a b : LocationStat) : Prop := b.totalScams ≤ a.totalScams

instance : DecidableRel totalScamsDesc := fun a b => by
  unfold totalScamsDesc; infer_instance

/-- `getAllLocationStats` (scams.ts:202-222): unauthenticated callers get
`[]`; authenticated callers get the stats with truthy coordinates, stably
sorted descending by `totalScams`. -/
def getAllLocationStats (identity : Option UserIdentity) (stats : List LocationStat) :
    List LocationStat :=
  match identity with
  | none => []
  | some _ =>
      List.insertionSort totalScamsDesc (stats.filter (fun st => coordsTruthy st.coordinates))

/-! ## Concrete values used to exercise the definitions -/

/-- An unprocessed story as `storeRawPost` creates it. -/
def sampleStory : Story :=
  { redditUrl := "https://reddit.com/r/travel/p1"
    subreddit := "travel"
    postId := "p1"
    authorUsername := "alice"
    postDate := 0
    upvotes := 1
    num_comments := 0
    title := "Taxi scam at the airport"
    summary := ""
    fullStory := "I got scammed by a taxi driver"
    country := "Unknown"
    city := none
    specificLocation := none
    scamType := "other"
    scamMethods := []
    targetDemographics := []
    moneyLost := none
    currency := none
    resolution := none
    warningSignals := []
    preventionTips := []
    aiConfidenceScore := 0
    verificationStatus := "unverified"
    helpfulCount := 0
    viewCount := 0
    reportCount := 0
    createdAt := 0
    updatedAt := 0
    isProcessed := false
    coordinates := none
    processingErrors := [] }

/-- A geocoder that finds nothing. -/
def emptyGeoOracle : GeoOracle := fun _ _ => .ok []

/-- A geocoder that resolves "Delhi, United States" to the Californian Delhi
(approximately 37°N, -120°E) and nothing else. -/
def usDelhiOracle : GeoOracle := fun q _ =>
  if q = "Delhi, United States" then
    .ok [⟨37, -120, none, none, none, none, none, []⟩]
  else .ok []

/-- Time budgets where the call at batch 0 is stopped by the wall-clock
ceiling before its first work unit, and every later call runs to
completion. -/
def interruptedBudgets : ℕ → ℕ := fun b => if b = 0 then 0 else 10

/-- Time budgets that never interrupt a batch. -/
def steadyBudgets : ℕ → ℕ := fun _ => 100

/-! ## Theorems -/

/-- C10: For every unauthenticated caller, the authentication-gated read
queries over the pipeline's output return an empty result rather than raising
an error: `getTotalScamCount` returns 0, and `getScamStoriesForGlobe` and
`getAllLocationStats` return the empty list; data is only returned to
authenticated callers. -/
theorem claim_C10_unauthenticated_reads_empty (stories : List Story)
    (stats : List LocationStat) :
    getTotalScamCount none stories = 0 ∧
    getScamStoriesForGlobe none stories = [] ∧
    getAllLocationStats none stats = [] :=
  ⟨rfl, rfl, rfl⟩

/-- C8: Post ingestion is idempotent on the external post ID: starting from a
table that does not yet hold the ID, the first `storeRawPost` call reports
`inserted = true`, the second call with the same external ID reports
`inserted = false`, leaves the whole table untouched (so the stored record is
never overwritten), and exactly one record with that ID is stored. -/
theorem claim_C8_idempotent_ingestion (now₁ now₂ : ℕ) (p q : PostData)
    (table : List Story) (hid : q.id = p.id)
    (hfresh : ∀ s ∈ table, s.postId ≠ p.id) :
    (storeRawPost now₁ p table).1 = true ∧
    (storeRawPost now₂ q (storeRawPost now₁ p table).2).1 = false ∧
    (storeRawPost now₂ q (storeRawPost now₁ p table).2).2 = (storeRawPost now₁ p table).2 ∧
    ((storeRawPost now₁ p table).2.filter (fun s => s.postId = p.id)).length = 1 := by
  have hany : (table.any fun s => s.postId = p.id) = false := by
    rw [List.any_eq_false]
    intro s hs
    simpa using hfresh s hs
  have hfilter : (table.filter fun s => s.postId = p.id) = [] := by
    rw [List.filter_eq_nil_iff]
    intro s hs
    simpa using hfresh s hs
  refine ⟨?_, ?_, ?_, ?_⟩
  · simp [storeRawPost, hany]
  · simp [storeRawPost, hany, hid]
  · simp [storeRawPost, hany, hid]
  · simp [storeRawPost, hany, List.filter_append, hfilter]

/-- Witness for C8 at a concrete post and the empty table. -/
theorem claim_C8_idempotent_ingestion_witness :
    ((⟨"p1", "t", "s", "alice", "travel", 0, 1, 0, "u", "l"⟩ : PostData).id = "p1") ∧
    (∀ s ∈ ([] : List Story), s.postId ≠ "p1") ∧
    ((storeRawPost 3 ⟨"p1", "t", "s", "alice", "travel", 0, 1, 0, "u", "l"⟩ []).1 = true ∧
     (storeRawPost 4 ⟨"p1", "t", "s", "alice", "travel", 0, 1, 0, "u", "l"⟩
        (storeRawPost 3 ⟨"p1", "t", "s", "alice", "travel", 0, 1, 0, "u", "l"⟩ []).2).1 = false ∧
     (storeRawPost 4 ⟨"p1", "t", "s", "alice", "travel", 0, 1, 0, "u", "l"⟩
        (storeRawPost 3 ⟨"p1", "t", "s", "alice", "travel", 0, 1, 0, "u", "l"⟩ []).2).2 =
       (storeRawPost 3 ⟨"p1", "t", "s", "alice", "travel", 0, 1, 0, "u", "l"⟩ []).2 ∧
     ((storeRawPost 3 ⟨"p1", "t", "s", "alice", "travel", 0, 1, 0, "u", "l"⟩ []).2.filter
        (fun s => s.postId = "p1")).length = 1) :=
  ⟨rfl, by simp,
   claim_C8_idempotent_ingestion 3 4 _ _ [] rfl (by simp)⟩

/-- C9 counterexample: `stopAllJobs` reads only the first 100 rows
(`take(100)`, reddit.ts:544), so in a table of 101 pending jobs the last one
keeps status `pending` — the claim that every pending/processing job is
flipped, for a job table of any size, fails. -/
theorem claim_C9_counterexample :
    ((stopAllJobs 5 (List.replicate 101
        (⟨"travel", "scam", .pending, none, 0, 0⟩ : FetchJob))).getLast?).map
      FetchJob.status = some JobStatus.pending ∧
    JobStatus.pending ∈
      (stopAllJobs 5 (List.replicate 101
        (⟨"travel", "scam", .pending, none, 0, 0⟩ : FetchJob))).map FetchJob.status := by
  constructor <;> decide

/-- C9 (amended): `stopAllJobs` flips every pending/processing job *among the
first 100 rows it reads* to `failed` with the fixed message
"Manually stopped", leaves completed/failed jobs entirely unchanged, and
leaves every row beyond the first 100 untouched whatever its status. -/
theorem claim_C9_amended (now : ℕ) (table : List FetchJob) :
    (∀ i j, table[i]? = some j →
        (stopAllJobs now table)[i]? = some (if i < 100 then stopOneJob now j else j)) ∧
    (∀ j : FetchJob, j.status = JobStatus.completed ∨ j.status = JobStatus.failed →
        stopOneJob now j = j) ∧
    (∀ j : FetchJob, j.status = JobStatus.pending ∨ j.status = JobStatus.processing →
        stopOneJob now j =
          { j with status := .failed, errorMessage := some "Manually stopped",
                   lastFetchedAt := now }) := by
  refine ⟨?_, ?_, ?_⟩
  · intro i j hij
    have hilen : i < table.length := by
      by_contra hge
      rw [List.getElem?_eq_none (by omega)] at hij
      exact Option.noConfusion hij
    by_cases h100 : i < 100
    · rw [if_pos h100]
      have htake : i < (List.map (stopOneJob now) (table.take 100)).length := by
        simp [List.length_take]; omega
      rw [stopAllJobs, List.getElem?_append, if_pos htake, List.getElem?_map,
        List.getElem?_take, if_pos h100, hij]
      rfl
    · rw [if_neg h100]
      have hlen : (List.map (stopOneJob now) (table.take 100)).length = 100 := by
        simp [List.length_take]; omega
      rw [stopAllJobs, List.getElem?_append, if_neg (by omega), hlen,
        List.getElem?_drop]
      rw [show 100 + (i - 100) = i by omega, hij]
  · rintro j (h | h) <;> simp [stopOneJob, h]
  · rintro j (h | h) <;> simp [stopOneJob, h]

/-- Witness for C9 (amended) at a two-row table. -/
theorem claim_C9_amended_witness :
    ([(⟨"a", "b", .completed, none, 3, 0⟩ : FetchJob),
      ⟨"c", "d", .pending, none, 0, 0⟩][1]? =
        some (⟨"c", "d", .pending, none, 0, 0⟩ : FetchJob)) ∧
    (stopAllJobs 7 [⟨"a", "b", .completed, none, 3, 0⟩,
        ⟨"c", "d", .pending, none, 0, 0⟩])[1]? =
      some (if 1 < 100 then stopOneJob 7 ⟨"c", "d", .pending, none, 0, 0⟩
            else ⟨"c", "d", .pending, none, 0, 0⟩) ∧
    stopOneJob 7 ⟨"a", "b", .completed, none, 3, 0⟩ =
      ⟨"a", "b", .completed, none, 3, 0⟩ ∧
    stopOneJob 7 ⟨"c", "d", .pending, none, 0, 0⟩ =
      ⟨"c", "d", .failed, some "Manually stopped", 0, 7⟩ :=
  ⟨rfl,
   (claim_C9_amended 7 _).1 1 _ rfl,
   (claim_C9_amended 7 []).2.1 _ (Or.inl rfl),
   (claim_C9_amended 7 []).2.2 _ (Or.inl rfl)⟩

/-- C4 counterexample: there is no max-attempt cutoff.
`getUnprocessedStoriesBatch` selects on `isProcessed = false` alone
(aiAnalyzer.ts:731-739), so a record that has already accumulated 1000
processing errors is still selected for automatic retry — the claimed
"after the max-attempt cutoff is reached the record … is no longer selected
for automatic retry" fails. -/
theorem claim_C4_counterexample :
    ({ sampleStory with processingErrors := List.replicate 1000 "LLM API error: 500" } ∈
      getUnprocessedStoriesBatch
        [{ sampleStory with processingErrors := List.replicate 1000 "LLM API error: 500" }] 10) ∧
    ({ sampleStory with
        processingErrors :=
          List.replicate 1000 "LLM API error: 500" } : Story).processingErrors.length = 1000 := by
  constructor
  · rw [show getUnprocessedStoriesBatch
        [{ sampleStory with processingErrors := List.replicate 1000 "LLM API error: 500" }] 10 =
        [{ sampleStory with processingErrors := List.replicate 1000 "LLM API error: 500" }]
      from rfl]
    exact List.mem_singleton.mpr rfl
  · rw [show ({ sampleStory with
        processingErrors := List.replicate 1000 "LLM API error: 500" } : Story).processingErrors =
        List.replicate 1000 "LLM API error: 500" from rfl, List.length_replicate]

/-- C4 (amended): a transient enrichment error leaves the record unprocessed
(`isProcessed` untouched) with the human-readable error appended to
`processingErrors` (whose length serves as the attempt count and grows by
one); but there is no max-attempt cutoff: a record with any number of
accumulated errors is still selected for automatic retry by
`getUnprocessedStoriesBatch` as long as it is unprocessed. -/
theorem claim_C4_amended (now : ℕ) (err : String) (story : Story)
    (table : List Story) (limit : ℕ) :
    ((markProcessingError now err story).isProcessed = story.isProcessed ∧
     (markProcessingError now err story).processingErrors = story.processingErrors ++ [err] ∧
     (markProcessingError now err story).processingErrors.length =
       story.processingErrors.length + 1) ∧
    (story.isProcessed = false → 0 < limit →
      story ∈ getUnprocessedStoriesBatch (story :: table) limit) := by
  refine ⟨⟨rfl, rfl, by simp [markProcessingError]⟩, ?_⟩
  intro hunproc hlim
  cases limit with
  | zero => omega
  | succ n =>
      simp only [getUnprocessedStoriesBatch, List.filter_cons, hunproc]
      simp

/-- Witness for C4 (amended): the sample story, with one prior error, stays
selectable. -/
theorem claim_C4_amended_witness :
    (sampleStory.isProcessed = false) ∧ (0 < 1) ∧
    ((markProcessingError 9 "timeout" sampleStory).isProcessed = sampleStory.isProcessed ∧
     (markProcessingError 9 "timeout" sampleStory).processingErrors =
       sampleStory.processingErrors ++ ["timeout"] ∧
     (markProcessingError 9 "timeout" sampleStory).processingErrors.length =
       sampleStory.processingErrors.length + 1) ∧
    sampleStory ∈ getUnprocessedStoriesBatch [sampleStory] 1 :=
  ⟨rfl, by decide,
   (claim_C4_amended 9 "timeout" sampleStory [] 1).1,
   (claim_C4_amended 9 "timeout" sampleStory [] 1).2 rfl (by decide)⟩

/-- C3: for every record whose classification call times out, gets a non-2xx
response, or yields unparseable JSON, the enrichment step does not raise: the
classifier returns the safe default (`isScamStory = false`,
`confidence = 0`), and the record ends marked processed with confidence 0
(via `markAsNotScam`), never left unprocessed or in an error state. -/
theorem claim_C3_safe_default_on_classifier_failure (resp : LlmResponse)
    (oracle : GeoOracle) (tokenSet : Bool) (now : ℕ) (story : Story)
    (hfail : ClassifyCallFailed resp) (hunproc : story.isProcessed = false) :
    analyzeWithOpenAI resp = defaultScamAnalysis ∧
    (analyzeWithOpenAI resp).isScamStory = false ∧
    (analyzeWithOpenAI resp).confidence = 0 ∧
    analyzeScamStoryRecord true resp oracle tokenSet now story =
      markAsNotScam now story ∧
    (analyzeScamStoryRecord true resp oracle tokenSet now story).isProcessed = true ∧
    (analyzeScamStoryRecord true resp oracle tokenSet now story).aiConfidenceScore = 0 := by
  have hdef : analyzeWithOpenAI resp = defaultScamAnalysis := by
    rcases hfail with h | ⟨status, body, h, hok⟩ | ⟨status, h⟩
    · rw [h]; rfl
    · rw [h]; simp [analyzeWithOpenAI, hok]
    · rw [h]
      by_cases hok : httpOk status <;> simp [analyzeWithOpenAI, hok]
  have hrec : analyzeScamStoryRecord true resp oracle tokenSet now story =
      markAsNotScam now story := by
    simp [analyzeScamStoryRecord, hunproc, hdef, defaultScamAnalysis]
  refine ⟨hdef, by rw [hdef]; rfl, by rw [hdef]; rfl, hrec, ?_, ?_⟩
  · rw [hrec]; rfl
  · rw [hrec]; rfl

/-- Witness for C3 at a timed-out call on the sample story. -/
theorem claim_C3_safe_default_on_classifier_failure_witness :
    ClassifyCallFailed LlmResponse.timeout ∧
    sampleStory.isProcessed = false ∧
    analyzeWithOpenAI LlmResponse.timeout = defaultScamAnalysis ∧
    analyzeScamStoryRecord true LlmResponse.timeout emptyGeoOracle true 11 sampleStory =
      markAsNotScam 11 sampleStory ∧
    (analyzeScamStoryRecord true LlmResponse.timeout emptyGeoOracle true 11
        sampleStory).isProcessed = true ∧
    (analyzeScamStoryRecord true LlmResponse.timeout emptyGeoOracle true 11
        sampleStory).aiConfidenceScore = 0 := by
  have h := claim_C3_safe_default_on_classifier_failure LlmResponse.timeout
    emptyGeoOracle true 11 sampleStory (Or.inl rfl) rfl
  exact ⟨Or.inl rfl, rfl, h.1, h.2.2.2.1, h.2.2.2.2.1, h.2.2.2.2.2⟩

/-- C1 counterexample: the code updates the running average with
`(existingStats.averageLoss || 0) + args.moneyLost / 2` (aiAnalyzer.ts:542),
not with `oldAvg + (newAmount - oldAvg)/2`.  On a row with stored average 10
and an incident with loss 10, the claimed formula gives 10 while the code
stores 15. -/
theorem claim_C1_counterexample :
    (updateLocationStatsMutation 5 ⟨"India", some "Delhi", "taxi", some 10⟩
        [⟨"India", some "Delhi", 3, [⟨"taxi", 3⟩], some 10, 0, none⟩]).map
      LocationStat.averageLoss = [some 15] ∧
    ¬ ((15 : ℚ) = 10 + (10 - 10) / 2) := by
  constructor
  · have h10 : moneyTruthy (some (10 : ℚ)) = true := by decide
    simp [updateLocationStatsMutation, bumpLocationStat, h10]
    norm_num
  · norm_num

/-- C1 (amended): for every existing `LocationStat` row, a `recordIncident`
call that carries a nonzero loss amount `m` updates the stored average loss
to `(oldAvg defaulting to 0) + m / 2`, and a call that carries no loss
amount — or the amount `0`, which JS truthiness treats as absent — leaves the
stored average unchanged.  The first conjunct ties the row patch to the
table-level mutation. -/
theorem claim_C1_amended (now : ℕ) (a : IncArgs) (st : LocationStat)
    (rest : List LocationStat) (hc : st.country = a.country)
    (hcity : st.city = a.city) :
    updateLocationStatsMutation now a (st :: rest) = bumpLocationStat now a st :: rest ∧
    (∀ m : ℚ, a.moneyLost = some m → m ≠ 0 →
        (bumpLocationStat now a st).averageLoss = some (st.averageLoss.getD 0 + m / 2)) ∧
    (a.moneyLost = none → (bumpLocationStat now a st).averageLoss = st.averageLoss) ∧
    (a.moneyLost = some 0 → (bumpLocationStat now a st).averageLoss = st.averageLoss) := by
  refine ⟨by simp [updateLocationStatsMutation, hc, hcity], ?_, ?_, ?_⟩
  · intro m hm hm0
    have ht : moneyTruthy (some m) = true := by simp [moneyTruthy, hm0]
    simp [bumpLocationStat, hm, ht]
  · intro hm
    have ht : moneyTruthy a.moneyLost = false := by simp [hm, moneyTruthy]
    simp [bumpLocationStat, ht]
  · intro hm
    have ht : moneyTruthy a.moneyLost = false := by simp [hm, moneyTruthy]
    simp [bumpLocationStat, ht]

/-- Witness for C1 (amended) at a concrete matching row and a loss of 4. -/
theorem claim_C1_amended_witness :
    (("Thailand" : String) = "Thailand") ∧ ((some "Bangkok" : Option String) = some "Bangkok") ∧
    ((⟨"Thailand", some "Bangkok", "taxi", some 4⟩ : IncArgs).moneyLost = some 4) ∧
    ((4 : ℚ) ≠ 0) ∧
    updateLocationStatsMutation 2 ⟨"Thailand", some "Bangkok", "taxi", some 4⟩
        [⟨"Thailand", some "Bangkok", 2, [⟨"taxi", 2⟩], some 6, 0, none⟩] =
      bumpLocationStat 2 ⟨"Thailand", some "Bangkok", "taxi", some 4⟩
        ⟨"Thailand", some "Bangkok", 2, [⟨"taxi", 2⟩], some 6, 0, none⟩ :: [] ∧
    (bumpLocationStat 2 ⟨"Thailand", some "Bangkok", "taxi", some 4⟩
        ⟨"Thailand", some "Bangkok", 2, [⟨"taxi", 2⟩], some 6, 0, none⟩).averageLoss =
      some ((⟨"Thailand", some "Bangkok", 2, [⟨"taxi", 2⟩], some 6, 0,
        none⟩ : LocationStat).averageLoss.getD 0 + 4 / 2) := by
  have h := claim_C1_amended 2 ⟨"Thailand", some "Bangkok", "taxi", some 4⟩
    ⟨"Thailand", some "Bangkok", 2, [⟨"taxi", 2⟩], some 6, 0, none⟩ [] rfl rfl
  exact ⟨rfl, rfl, rfl, by decide, h.1, h.2.1 4 rfl (by decide)⟩

instance : IsTotal TypeCount countDesc :=
  ⟨fun a b => le_total b.count a.count⟩

instance : IsTrans TypeCount countDesc :=
  ⟨fun _ _ _ hab hbc => le_trans hbc hab⟩

theorem countSum_bumpTypeList (ty : String) (l : List TypeCount) :
    countSum (bumpTypeList ty l) = countSum l + 1 := by
  induction l with
  | nil => simp [bumpTypeList, countSum]
  | cons t ts ih =>
      by_cases h : t.type = ty
      · simp only [bumpTypeList, if_pos h, countSum, List.map_cons, List.sum_cons]
        simp [countSum] at ih ⊢
        omega
      · simp only [bumpTypeList, if_neg h, countSum, List.map_cons, List.sum_cons]
        simp [countSum] at ih ⊢
        omega

theorem countSum_perm {l l' : List TypeCount} (h : l.Perm l') :
    countSum l = countSum l' :=
  (h.map TypeCount.count).sum_eq

theorem countSum_take_le (n : ℕ) (l : List TypeCount) :
    countSum (l.take n) ≤ countSum l := by
  have h : countSum (l.take n) + countSum (l.drop n) = countSum l := by
    unfold countSum
    rw [← List.sum_append, ← List.map_append, List.take_append_drop]
  omega

/-- The row invariant maintained by the aggregator: bounded, sorted-descending
top-category list whose counts sum to at most the total. -/
def statOk (st : LocationStat) : Prop :=
  st.topScamTypes.length ≤ 5 ∧ st.topScamTypes.Sorted countDesc ∧
    countSum st.topScamTypes ≤ st.totalScams

theorem statOk_fresh (now : ℕ) (a : IncArgs) : statOk (freshLocationStat now a) := by
  refine ⟨by simp [freshLocationStat], ?_, by simp [freshLocationStat, countSum]⟩
  simp [freshLocationStat, List.sorted_singleton]

theorem statOk_bump (now : ℕ) (a : IncArgs) (st : LocationStat) (h : statOk st) :
    statOk (bumpLocationStat now a st) := by
  refine ⟨?_, ?_, ?_⟩
  · show ((sortedCandidates st a).take 5).length ≤ 5
    simp [List.length_take]
  · show ((sortedCandidates st a).take 5).Sorted countDesc
    exact List.Pairwise.sublist (List.take_sublist 5 _)
      (List.sorted_insertionSort countDesc _)
  · show countSum ((sortedCandidates st a).take 5) ≤ st.totalScams + 1
    calc countSum ((sortedCandidates st a).take 5)
        ≤ countSum (sortedCandidates st a) := countSum_take_le _ _
      _ = countSum (bumpTypeList a.scamType st.topScamTypes) :=
          countSum_perm (List.perm_insertionSort _ _)
      _ = countSum st.topScamTypes + 1 := countSum_bumpTypeList _ _
      _ ≤ st.totalScams + 1 := by have := h.2.2; omega

theorem statOk_update (now : ℕ) (a : IncArgs) (table : List LocationStat)
    (h : ∀ st ∈ table, statOk st) :
    ∀ st ∈ updateLocationStatsMutation now a table, statOk st := by
  induction table with
  | nil =>
      intro st hst
      simp only [updateLocationStatsMutation, List.mem_singleton] at hst
      subst hst
      exact statOk_fresh now a
  | cons t ts ih =>
      intro st hst
      by_cases hm : t.country = a.country ∧ t.city = a.city
      · rw [updateLocationStatsMutation, if_pos hm] at hst
        rcases List.mem_cons.mp hst with h1 | h2
        · subst h1
          exact statOk_bump now a t (h t (List.mem_cons_self t ts))
        · exact h st (List.mem_cons_of_mem _ h2)
      · rw [updateLocationStatsMutation, if_neg hm] at hst
        rcases List.mem_cons.mp hst with h1 | h2
        · subst h1
          exact h st (List.mem_cons_self st ts)
        · exact ih (fun s hs => h s (List.mem_cons_of_mem _ hs)) st h2

theorem statOk_run (calls : List (ℕ × IncArgs)) :
    ∀ table, (∀ st ∈ table, statOk st) → ∀ st ∈ runIncidents calls table, statOk st := by
  induction calls with
  | nil => intro table h st hst; exact h st hst
  | cons c rest ih =>
      intro table h st hst
      exact ih _ (statOk_update c.1 c.2 table h) st hst

theorem sortedCandidates_eviction (st : LocationStat) (a : IncArgs) :
    ∀ e ∈ (sortedCandidates st a).drop 5, ∀ k ∈ (sortedCandidates st a).take 5,
      e.count ≤ k.count := by
  have hs : List.Pairwise countDesc (sortedCandidates st a) :=
    List.sorted_insertionSort countDesc _
  have happ := List.take_append_drop 5 (sortedCandidates st a)
  rw [← happ] at hs
  have hcross := (List.pairwise_append.mp hs).2.2
  intro e he k hk
  exact hcross k hk e he

/-- C5: after any sequence of `recordIncident` calls starting from the empty
statistics table, every `LocationStat` row has a top-category list of at most
5 entries, sorted descending by count, whose counts sum to at most the row's
total report count; and in the update step, every entry evicted beyond the
5th has a count no larger than any kept entry (eviction by ascending
count). -/
theorem claim_C5_bounded_top_categories (calls : List (ℕ × IncArgs))
    (st : LocationStat) (hst : st ∈ runIncidents calls []) :
    st.topScamTypes.length ≤ 5 ∧
    st.topScamTypes.Sorted countDesc ∧
    countSum st.topScamTypes ≤ st.totalScams ∧
    ∀ (a : IncArgs), ∀ e ∈ (sortedCandidates st a).drop 5,
      ∀ k ∈ (sortedCandidates st a).take 5, e.count ≤ k.count := by
  have h := statOk_run calls [] (by simp) st hst
  exact ⟨h.1, h.2.1, h.2.2, fun a => sortedCandidates_eviction st a⟩

/-- Witness for C5 after one concrete `recordIncident` call. -/
theorem claim_C5_bounded_top_categories_witness :
    (freshLocationStat 0 ⟨"Thailand", some "Bangkok", "taxi", none⟩ ∈
      runIncidents [(0, ⟨"Thailand", some "Bangkok", "taxi", none⟩)] []) ∧
    ((freshLocationStat 0 ⟨"Thailand", some "Bangkok", "taxi",
        none⟩).topScamTypes.length ≤ 5 ∧
     (freshLocationStat 0 ⟨"Thailand", some "Bangkok", "taxi",
        none⟩).topScamTypes.Sorted countDesc ∧
     countSum (freshLocationStat 0 ⟨"Thailand", some "Bangkok", "taxi",
        none⟩).topScamTypes ≤
       (freshLocationStat 0 ⟨"Thailand", some "Bangkok", "taxi", none⟩).totalScams) := by
  have hmem : freshLocationStat 0 ⟨"Thailand", some "Bangkok", "taxi", none⟩ ∈
      runIncidents [(0, ⟨"Thailand", some "Bangkok", "taxi", none⟩)] [] := by
    rw [show runIncidents [(0, ⟨"Thailand", some "Bangkok", "taxi", none⟩)] [] =
      [freshLocationStat 0 ⟨"Thailand", some "Bangkok", "taxi", none⟩] from rfl]
    exact List.mem_singleton.mpr rfl
  have h := claim_C5_bounded_top_categories _ _ hmem
  exact ⟨hmem, h.1, h.2.1, h.2.2.1⟩


theorem effBatchSize_pos (sizeArg : ℕ) : 0 < effBatchSize sizeArg := by
  unfold effBatchSize
  split <;> omega

theorem runBatches_eq (S K sizeArg : ℕ) (budgets : ℕ → ℕ)
    (hb : ∀ b, effBatchSize sizeArg ≤ budgets b) :
    ∀ (fuel batch : ℕ), S * K < batch * effBatchSize sizeArg + fuel →
      runBatches S K sizeArg budgets fuel batch =
        (List.range' (batch * effBatchSize sizeArg)
          (S * K - batch * effBatchSize sizeArg)).map (fun i => (i / K, i % K)) := by
  intro fuel
  induction fuel with
  | zero =>
      intro batch hfuel
      have hz : S * K - batch * effBatchSize sizeArg = 0 := by omega
      rw [hz]
      rfl
  | succ fuel ih =>
      intro batch hfuel
      have hepos := effBatchSize_pos sizeArg
      by_cases hdone : S * K ≤ batch * effBatchSize sizeArg
      · have hz : S * K - batch * effBatchSize sizeArg = 0 := by omega
        rw [hz]
        simp [runBatches, fetchBatch, hdone]
      · push_neg at hdone
        have hbudget := hb batch
        by_cases hlast : S * K ≤ batch * effBatchSize sizeArg + effBatchSize sizeArg
        · have hmin : min (batch * effBatchSize sizeArg + effBatchSize sizeArg) (S * K)
              = S * K := by omega
          have hlen : min (S * K - batch * effBatchSize sizeArg) (budgets batch)
              = S * K - batch * effBatchSize sizeArg := by omega
          simp only [runBatches, fetchBatch,
            if_neg (by omega : ¬ S * K ≤ batch * effBatchSize sizeArg), hmin, hlen]
          rw [if_pos (le_refl (S * K))]
          simp
        · push_neg at hlast
          have hmin : min (batch * effBatchSize sizeArg + effBatchSize sizeArg) (S * K)
              = batch * effBatchSize sizeArg + effBatchSize sizeArg := by omega
          have hlen : min (batch * effBatchSize sizeArg + effBatchSize sizeArg -
              batch * effBatchSize sizeArg) (budgets batch) = effBatchSize sizeArg := by
            omega
          have hrec : S * K < (batch + 1) * effBatchSize sizeArg + fuel := by
            rw [Nat.succ_mul]
            omega
          simp only [runBatches, fetchBatch,
            if_neg (by omega : ¬ S * K ≤ batch * effBatchSize sizeArg), hmin, hlen]
          rw [if_neg (by omega : ¬ S * K ≤ batch * effBatchSize sizeArg +
            effBatchSize sizeArg)]
          simp only [Nat.succ_ne_zero, if_neg (Nat.succ_ne_zero batch)]
          rw [ih (batch + 1) hrec]
          simp only [if_false]
          rw [← List.map_append]
          congr 1
          have happ := List.range'_append (batch * effBatchSize sizeArg)
            (effBatchSize sizeArg) (S * K - (batch + 1) * effBatchSize sizeArg) 1
          rw [Nat.one_mul] at happ
          rw [show (batch + 1) * effBatchSize sizeArg =
            batch * effBatchSize sizeArg + effBatchSize sizeArg from by rw [Nat.succ_mul]] at happ ⊢
          rw [happ]
          congr 1
          omega

/-- C2 (amended): starting from batch number 0 and repeatedly calling the
batch scheduler with the `nextBatch` number it returns until that number is
0, with batches never interrupted by the wall-clock ceiling (every call's
budget covers its whole slice), every (channel, term) index pair of the
cross-product matrix is visited exactly once — the visit list has no
duplicates and contains exactly the pairs of the matrix — for a matrix of any
size; but when the ceiling stops a batch early, the returned cursor advances
past the whole slice and the unvisited pairs of that slice are skipped (see
the counterexample). -/
theorem claim_C2_visits_each_pair_once (S K sizeArg : ℕ) (budgets : ℕ → ℕ)
    (hb : ∀ b, effBatchSize sizeArg ≤ budgets b) :
    (runBatches S K sizeArg budgets (S * K + 1) 0).Nodup ∧
    (∀ s k, (s, k) ∈ runBatches S K sizeArg budgets (S * K + 1) 0 ↔ (s < S ∧ k < K)) := by
  have heq := runBatches_eq S K sizeArg budgets hb (S * K + 1) 0
    (by simp [Nat.zero_mul])
  rw [Nat.zero_mul, Nat.sub_zero, ← List.range_eq_range'] at heq
  rw [heq]
  constructor
  · apply List.Nodup.map_on _ (List.nodup_range _)
    intro x hx y hy hxy
    rw [Prod.ext_iff] at hxy
    simp only at hxy
    calc x = K * (x / K) + x % K := (Nat.div_add_mod x K).symm
      _ = K * (y / K) + y % K := by rw [hxy.1, hxy.2]
      _ = y := Nat.div_add_mod y K
  · intro s k
    constructor
    · intro hp
      obtain ⟨i, hi, hpair⟩ := List.mem_map.mp hp
      rw [List.mem_range] at hi
      have hK : 0 < K := by
        rcases Nat.eq_zero_or_pos K with h0 | h
        · subst h0; simp at hi
        · exact h
      rw [Prod.ext_iff] at hpair
      simp only at hpair
      rw [← hpair.1, ← hpair.2]
      exact ⟨Nat.div_lt_of_lt_mul (by rwa [Nat.mul_comm] at hi), Nat.mod_lt _ hK⟩
    · rintro ⟨hs, hk⟩
      have hK : 0 < K := by omega
      refine List.mem_map.mpr ⟨s * K + k, List.mem_range.mpr ?_, ?_⟩
      · calc s * K + k < s * K + K := by omega
          _ = (s + 1) * K := by ring
          _ ≤ S * K := Nat.mul_le_mul_right K hs
      · have hdiv : (s * K + k) / K = s := by
          rw [Nat.add_comm, Nat.add_mul_div_right _ _ hK, Nat.div_eq_of_lt hk]
          omega
        have hmod : (s * K + k) % K = k := by
          rw [Nat.add_comm, Nat.add_mul_mod_self_right, Nat.mod_eq_of_lt hk]
        simp [hdiv, hmod]

/-- C2 counterexample: when the wall-clock ceiling stops a batch before it
finishes its slice, the returned cursor (`batch + 1`, reddit.ts:730) skips
the unvisited pairs of that slice.  With 1 channel, 2 terms, batch size 1,
and the call at batch 0 interrupted before its first work unit, the full
resume protocol visits only pair (0, 1); pair (0, 0) is never visited even
though the run terminates with cursor 0. -/
theorem claim_C2_counterexample :
    runBatches 1 2 1 interruptedBudgets 10 0 = [(0, 1)] ∧
    (0, 0) ∉ runBatches 1 2 1 interruptedBudgets 10 0 := by
  constructor <;> decide

/-- Witness for C2 (amended) on a concrete 2 x 3 matrix with ample budget. -/
theorem claim_C2_visits_each_pair_once_witness :
    (∀ b, effBatchSize 0 ≤ steadyBudgets b) ∧
    (runBatches 2 3 0 steadyBudgets (2 * 3 + 1) 0).Nodup ∧
    ((1, 2) ∈ runBatches 2 3 0 steadyBudgets (2 * 3 + 1) 0 ↔ (1 < 2 ∧ 2 < 3)) := by
  have hb : ∀ b, effBatchSize 0 ≤ steadyBudgets b := fun _ => by
    simp [effBatchSize, steadyBudgets]
  have h := claim_C2_visits_each_pair_once 2 3 0 steadyBudgets hb
  exact ⟨hb, h.1, h.2 1 2⟩

theorem delhi_fix_in_tolerance :
    |(28.6139 : ℚ) - 28.6| ≤ 5 ∧ |(77.209 : ℚ) - 77.2| ≤ 5 := by
  constructor
  · rw [show |(28.6139 : ℚ) - 28.6| = 28.6139 - 28.6 from abs_of_nonneg (by norm_num)]
    norm_num
  · rw [show |(77.209 : ℚ) - 77.2| = 77.209 - 77.2 from abs_of_nonneg (by norm_num)]
    norm_num

theorem lombok_fix_in_tolerance :
    |(-8.65 : ℚ) - (-8.65)| ≤ 2 ∧ |(116.3249 : ℚ) - 116.3| ≤ 2 := by
  constructor
  · rw [show |(-8.65 : ℚ) - (-8.65)| = 0 from by norm_num]
    norm_num
  · rw [show |(116.3249 : ℚ) - 116.3| = 116.3249 - 116.3 from abs_of_nonneg (by norm_num)]
    norm_num

theorem delhi_within (lat lng : ℚ) (h : ¬ delhiOutOfTolerance lat lng = true) :
    |lat - 28.6| ≤ 5 ∧ |lng - 77.2| ≤ 5 := by
  simp only [delhiOutOfTolerance, decide_eq_true_eq, not_or, not_lt] at h
  exact h

theorem lombok_within (lat lng : ℚ) (h : ¬ lombokOutOfTolerance lat lng = true) :
    |lat - (-8.65)| ≤ 2 ∧ |lng - 116.3| ≤ 2 := by
  simp only [lombokOutOfTolerance, decide_eq_true_eq, not_or, not_lt] at h
  exact h



/-- C6 counterexample: the geocode cache is keyed by
`location.toLowerCase().trim()` alone (firecrawl.ts:717), not by the
normalized query string sent to the geocoder: a call for ("Delhi",
hint "United States") and a call for ("Delhi", hint "India") build different
query strings yet share the cache entry "delhi", so the second call performs
no external request and returns the first call's (US) coordinates. -/
theorem claim_C6_counterexample :
    buildGeoQuery "Delhi" (some "India") ≠ buildGeoQuery "Delhi" (some "United States") ∧
    (geocodeLocation usDelhiOracle true [] "Delhi" (some "United States")).cache =
      [("delhi", ⟨37, -120⟩)] ∧
    (geocodeLocation usDelhiOracle true
        (geocodeLocation usDelhiOracle true [] "Delhi" (some "United States")).cache
        "Delhi" (some "India")).result = some ⟨37, -120⟩ ∧
    (geocodeLocation usDelhiOracle true
        (geocodeLocation usDelhiOracle true [] "Delhi" (some "United States")).cache
        "Delhi" (some "India")).calledExternal = false :=
  ⟨by decide, by decide, by decide, by decide⟩

/-- C6 (amended): the process-lifetime geocode cache is keyed by the
lowercased, trimmed location hint only — the country hint and the appended
country of the query string are not part of the key.  Within one process
lifetime, a second `geocodeLocation` call whose location hint normalizes to
the same key performs no external geocoding call and returns the cached
coordinates unchanged, whatever its country hint; two calls whose location
hints normalize to different keys never share one cache entry, but two calls
whose full query strings differ can (see the counterexample).  The detailed
variant used by the enrichment path does not consult this cache at all. -/
theorem claim_C6_cache_keyed_by_location_only (oracle : GeoOracle)
    (tokenSet : Bool) (cache : List (String × Coords)) (loc loc' : String)
    (hint' : Option String) (c : Coords)
    (hkey : locationLowerKey loc' = locationLowerKey loc)
    (hc : cacheGet (locationLowerKey loc) cache = some c) :
    (geocodeLocation oracle tokenSet cache loc' hint').result = some c ∧
    (geocodeLocation oracle tokenSet cache loc' hint').calledExternal = false ∧
    (geocodeLocation oracle tokenSet cache loc' hint').cache = cache := by
  rw [geocodeLocation, hkey, hc]
  exact ⟨rfl, rfl, rfl⟩

/-- Witness for C6 (amended): a cached "delhi" entry is returned for the
differently-spelled location "DELHI " under a different country hint, with no
external call. -/
theorem claim_C6_cache_keyed_by_location_only_witness :
    locationLowerKey "DELHI " = locationLowerKey "Delhi" ∧
    cacheGet (locationLowerKey "Delhi") [("delhi", ⟨28, 77⟩)] = some ⟨28, 77⟩ ∧
    (geocodeLocation emptyGeoOracle true [("delhi", ⟨28, 77⟩)] "DELHI "
        (some "India")).result = some ⟨28, 77⟩ ∧
    (geocodeLocation emptyGeoOracle true [("delhi", ⟨28, 77⟩)] "DELHI "
        (some "India")).calledExternal = false := by
  have h := claim_C6_cache_keyed_by_location_only emptyGeoOracle true
    [("delhi", ⟨28, 77⟩)] "Delhi" "DELHI " (some "India") ⟨28, 77⟩
    (by decide) (by decide)
  exact ⟨by decide, by decide, h.1, h.2.1⟩

/-- C7 counterexample: the sanity correction is bypassed by the cache.  After
a ("Delhi", hint "United States") call caches the US homonym's coordinates
under "delhi", a ("Delhi", hint "India") call returns those out-of-tolerance
US coordinates from the cache — so "never belong to the same-named US
location" fails for `geocodeLocation` as stated. -/
theorem claim_C7_counterexample :
    (geocodeLocation usDelhiOracle true
        (geocodeLocation usDelhiOracle true [] "Delhi" (some "United States")).cache
        "Delhi" (some "India")).result = some ⟨37, -120⟩ ∧
    locationLowerKey "Delhi" = "delhi" ∧
    hintIncludes (some "India") "india" = true ∧
    delhiOutOfTolerance 37 (-120) = true := by
  refine ⟨by decide, by decide, by decide, ?_⟩
  have h1 : |(37 : ℚ) - 28.6| > 5 := by
    rw [show |(37 : ℚ) - 28.6| = 37 - 28.6 from abs_of_nonneg (by norm_num)]
    norm_num
  simp only [delhiOutOfTolerance, decide_eq_true_eq]
  exact Or.inl h1

/-- C7 (amended): on every *fresh* (cache-miss) resolve and on every resolve
through the detailed geocoder (which has no cache), a call with location hint
normalizing to "delhi" and a country hint containing "india" returns
coordinates within the 5-degree tolerance of (28.6, 77.2) — an
out-of-tolerance geocoder result is discarded and replaced by the hard-coded
pair (28.6139, 77.209) — and symmetrically for "lombok"/"indonesia" with the
2-degree tolerance of (-8.65, 116.3) and the hard-coded pair
(-8.65, 116.3249).  A cache hit in `geocodeLocation`, however, bypasses the
sanity check (see the counterexample). -/
theorem claim_C7_hinted_homonyms_within_tolerance (oracle : GeoOracle) (tokenSet : Bool)
    (cache : List (String × Coords)) (loc : String) (hint : Option String) :
    (locationLowerKey loc = "delhi" → hintIncludes hint "india" = true →
      (∀ d ∈ geocodeLocationDetailed oracle tokenSet loc hint,
        |d.lat - 28.6| ≤ 5 ∧ |d.lng - 77.2| ≤ 5) ∧
      (cacheGet (locationLowerKey loc) cache = none →
        ∀ c ∈ (geocodeLocation oracle tokenSet cache loc hint).result,
          |c.lat - 28.6| ≤ 5 ∧ |c.lng - 77.2| ≤ 5)) ∧
    (locationLowerKey loc = "lombok" → hintIncludes hint "indonesia" = true →
      (∀ d ∈ geocodeLocationDetailed oracle tokenSet loc hint,
        |d.lat - (-8.65)| ≤ 2 ∧ |d.lng - 116.3| ≤ 2) ∧
      (cacheGet (locationLowerKey loc) cache = none →
        ∀ c ∈ (geocodeLocation oracle tokenSet cache loc hint).result,
          |c.lat - (-8.65)| ≤ 2 ∧ |c.lng - 116.3| ≤ 2)) := by
  constructor
  · intro hd hi
    constructor
    · intro d hmem
      rw [Option.mem_def, geocodeLocationDetailed] at hmem
      split at hmem
      · split at hmem
        · exact absurd hmem (by simp)
        · exact absurd hmem (by simp)
        · rename_i f tail heq
          split at hmem
          · have hmem2 : some (⟨28.6139, 77.209, some "India", some "Delhi"⟩ : GeoDetailed)
                = some d := hmem
            obtain rfl := Option.some_inj.mp hmem2
            exact delhi_fix_in_tolerance
          · rename_i hno
            split at hmem
            · rename_i hcond2
              rw [hd] at hcond2
              exact absurd hcond2.1 (by decide)
            · have hmem2 : some (⟨f.lat, f.lng,
                  jsOrStr f.ctxCountryName (jsOrStr f.propsCountry
                    (if f.placeTypes.contains "country" then f.propsName else none)),
                  jsOrStr f.ctxPlaceName (jsOrStr f.ctxLocalityName
                    (if f.placeTypes.contains "place" ∨ f.placeTypes.contains "locality" then
                      f.propsName else none))⟩ : GeoDetailed) = some d := hmem
              obtain rfl := Option.some_inj.mp hmem2
              exact delhi_within f.lat f.lng (fun htol => hno ⟨hd, by simp [hi], htol⟩)
      · exact absurd hmem (by simp)
    · intro hmiss c hmem
      rw [Option.mem_def, geocodeLocation] at hmem
      split at hmem
      · rename_i c' heq
        rw [hmiss] at heq
        exact absurd heq (by simp)
      · split at hmem
        · split at hmem
          · exact absurd hmem (by simp)
          · exact absurd hmem (by simp)
          · rename_i f tail heq
            split at hmem
            · have hmem2 : some (⟨28.6139, 77.209⟩ : Coords) = some c := hmem
              obtain rfl := Option.some_inj.mp hmem2
              exact ⟨delhi_fix_in_tolerance.1, delhi_fix_in_tolerance.2⟩
            · rename_i hno
              split at hmem
              · rename_i hcond2
                rw [hd] at hcond2
                exact absurd hcond2.1 (by decide)
              · have hmem2 : some (⟨f.lat, f.lng⟩ : Coords) = some c := hmem
                obtain rfl := Option.some_inj.mp hmem2
                exact delhi_within f.lat f.lng (fun htol => hno ⟨hd, by simp [hi], htol⟩)
        · exact absurd hmem (by simp)
  · intro hd hi
    constructor
    · intro d hmem
      rw [Option.mem_def, geocodeLocationDetailed] at hmem
      split at hmem
      · split at hmem
        · exact absurd hmem (by simp)
        · exact absurd hmem (by simp)
        · rename_i f tail heq
          split at hmem
          · rename_i hcond1
            rw [hd] at hcond1
            exact absurd hcond1.1 (by decide)
          · split at hmem
            · have hmem2 : some (⟨-8.65, 116.3249, some "Indonesia", some "Lombok"⟩ :
                  GeoDetailed) = some d := hmem
              obtain rfl := Option.some_inj.mp hmem2
              exact lombok_fix_in_tolerance
            · rename_i hno1 hno2
              have hmem2 : some (⟨f.lat, f.lng,
                  jsOrStr f.ctxCountryName (jsOrStr f.propsCountry
                    (if f.placeTypes.contains "country" then f.propsName else none)),
                  jsOrStr f.ctxPlaceName (jsOrStr f.ctxLocalityName
                    (if f.placeTypes.contains "place" ∨ f.placeTypes.contains "locality" then
                      f.propsName else none))⟩ : GeoDetailed) = some d := hmem
              obtain rfl := Option.some_inj.mp hmem2
              exact lombok_within f.lat f.lng (fun htol => hno2 ⟨hd, by simp [hi], htol⟩)
      · exact absurd hmem (by simp)
    · intro hmiss c hmem
      rw [Option.mem_def, geocodeLocation] at hmem
      split at hmem
      · rename_i c' heq
        rw [hmiss] at heq
        exact absurd heq (by simp)
      · split at hmem
        · split at hmem
          · exact absurd hmem (by simp)
          · exact absurd hmem (by simp)
          · rename_i f tail heq
            split at hmem
            · rename_i hcond1
              rw [hd] at hcond1
              exact absurd hcond1.1 (by decide)
            · split at hmem
              · have hmem2 : some (⟨-8.65, 116.3249⟩ : Coords) = some c := hmem
                obtain rfl := Option.some_inj.mp hmem2
                exact lombok_fix_in_tolerance
              · rename_i hno1 hno2
                have hmem2 : some (⟨f.lat, f.lng⟩ : Coords) = some c := hmem
                obtain rfl := Option.some_inj.mp hmem2
                exact lombok_within f.lat f.lng (fun htol => hno2 ⟨hd, by simp [hi], htol⟩)
        · exact absurd hmem (by simp)

/-- Witness for C7 (amended) at the hinted Delhi case over the empty cache. -/
theorem claim_C7_hinted_homonyms_within_tolerance_witness :
    locationLowerKey "Delhi" = "delhi" ∧
    hintIncludes (some "India") "india" = true ∧
    cacheGet (locationLowerKey "Delhi") [] = none ∧
    (∀ d ∈ geocodeLocationDetailed emptyGeoOracle true "Delhi" (some "India"),
      |d.lat - 28.6| ≤ 5 ∧ |d.lng - 77.2| ≤ 5) ∧
    (∀ c ∈ (geocodeLocation emptyGeoOracle true [] "Delhi" (some "India")).result,
      |c.lat - 28.6| ≤ 5 ∧ |c.lng - 77.2| ≤ 5) := by
  have h := (claim_C7_hinted_homonyms_within_tolerance emptyGeoOracle true []
    "Delhi" (some "India")).1 (by decide) (by decide)
  exact ⟨by decide, by decide, rfl, h.1, h.2 rfl⟩
